import Mathlib

/-!
Verification of the incremental rendering / dependency-invalidation engine
(`src/packages/engine/src/Engine.js` and the launch preset in
`src/unnamed/part_000`).

The engine orchestration is embedded as pure state transformers over an
explicit `EngineState`, each returning the successor state together with a
trace of observable events (`REvent`): renders, render failures, output-file
deletions, page-tree additions and saves.  External collaborators that are
not part of the sources under verification (the render worker, the URL/path
converters, the `PageTree` persistence internals and the file watcher
backend) are abstracted into an environment `Env` of oracle functions, or
modelled from the specification where noted.
-/

set_option maxHeartbeats 1000000

namespace RocketEngine

/-- Observable events emitted by the engine orchestration: a successful
render of a source file, a render that threw (the worker rejects while the
error page is still written to the output file), deletion of a page's output
file, registering a page in the page tree, persisting the page tree, and the
rocket-header update performed before rendering. -/
inductive REvent where
  | rendered (sourceFilePath : String)
  | renderFailed (sourceFilePath : String)
  | deletedOutput (sourceFilePath : String)
  | addedToTree (sourceRelativeFilePath : String)
  | savedTree
  | updatedHeader (sourceFilePath : String)
deriving DecidableEq, Repr

/-- Modelled from the spec: the `PageTree` class lives in
`src/web-menu/PageTree.js`, which is not among the sources; only its
interface (`add`, `save`, `needsAnotherRenderingPass`,
`pageTreeChangedOnSave`) is visible from `Engine.js`.  Per spec §4.2 the
tree keeps the set of registered source-relative paths, `save` sets
`needsAnotherRenderingPass` when the persisted structure changed, and sets
the `pageTreeChangedOnSave` flag on every save. -/
structure PageTree where
  entries : List String
  needsAnotherRenderingPass : Bool
  pageTreeChangedOnSave : Bool
deriving DecidableEq, Repr

def PageTree.empty : PageTree :=
  { entries := [], needsAnotherRenderingPass := false, pageTreeChangedOnSave := false }

/-- Modelled from the spec (§4.2): `add(sourceRelativePath)` inserts or
updates the node for this path in memory; it is cheap and sets no flags. -/
def PageTree.add (t : PageTree) (rel : String) : PageTree :=
  if rel ∈ t.entries then t else { t with entries := t.entries ++ [rel] }

/-- Oracle functions for the collaborators of `Engine.js` that are not part
of the sources under verification:
* `renderOk` — whether `renderViaWorker` succeeds for a source file (on
  failure the worker rejects after rendering the error into the output file,
  spec §4.3);
* `urlToSource` — `urlToSourceFilePath` of `urlPathConverter.js`;
* `outputOf` — `getOutputFilePath` (the `FilePathMapper` of spec §2);
* `relOf` — `path.relative(docsDir, ·)`;
* `structuralChange` — Modelled from the spec (§4.2): whether persisting the
  given entry list differs structurally from the previously persisted tree;
* `keepOnSave` — Modelled from the spec (§8): whether the source of a
  registered relative path still exists at save time (deleted pages are
  dropped from the tree on the next save). -/
structure Env where
  renderOk : String → Bool
  urlToSource : String → Option String
  outputOf : String → String
  relOf : String → String
  structuralChange : List String → Bool
  keepOnSave : String → Bool

/-- Modelled from the spec (§4.2 and §8): `save()` persists the tree,
dropping pages whose sources were deleted, records whether this save changed
the persisted tree (`pageTreeChangedOnSave`) and raises
`needsAnotherRenderingPass` when the persisted structure changed. -/
def PageTree.save (env : Env) (t : PageTree) : PageTree :=
  let changed := env.structuralChange t.entries
  { entries := t.entries.filter (fun rel => env.keepOnSave rel),
    needsAnotherRenderingPass := t.needsAnotherRenderingPass || changed,
    pageTreeChangedOnSave := changed }

/-- One entry of `watcher.pages`: the subscriber set of a tracked page, as
seen by `Engine.js` (`page.webSockets?.size`).  `openTabs` is the number of
open browser tabs currently displaying the page. -/
structure WatchPage where
  openTabs : Nat
deriving DecidableEq, Repr

/-- The engine-visible mutable state: the set of output files present on
disk, the in-memory page tree, and the watcher's page map (association list
keyed by absolute source file path, insertion ordered like a JS `Map`). -/
structure EngineState where
  outputFiles : List String
  pageTree : PageTree
  pages : List (String × WatchPage)
deriving DecidableEq, Repr

/-- Writing a file to the output directory: set-like insertion. -/
def insertOutput (files : List String) (o : String) : List String :=
  if o ∈ files then files else files ++ [o]

/-- Model of `Engine.renderFile` (Engine.js:383-391) via `renderViaWorker`: writes the
output file (on failure the error page is written instead, spec §4.3) and
reports whether the returned promise resolved (`true`) or rejected
(`false`). -/
def renderFile (env : Env) (s : EngineState) (sourceFilePath : String) :
    EngineState × List REvent × Bool :=
  if env.renderOk sourceFilePath then
    ({ s with outputFiles := insertOutput s.outputFiles (env.outputOf sourceFilePath) },
     [REvent.rendered sourceFilePath], true)
  else
    ({ s with outputFiles := insertOutput s.outputFiles (env.outputOf sourceFilePath) },
     [REvent.renderFailed sourceFilePath], false)

/-- Model of `Engine.deleteOutputOf` (Engine.js:329-331): `rm(outputFilePath,
{force: true})` — removes the output file if present, no error if absent. -/
def deleteOutputOf (env : Env) (s : EngineState) (sourceFilePath : String) :
    EngineState × List REvent :=
  ({ s with outputFiles := s.outputFiles.filter (fun o => o ≠ env.outputOf sourceFilePath) },
   [REvent.deletedOutput sourceFilePath])

/-- The loop body of `Engine.renderAllOpenedFiles` (Engine.js:351-377) over
the snapshot of `watcher.pages.entries()`: skip the triggering file
(`triggerSourceFilePath && triggerSourceFilePath === sourceFilePath`; the
empty string is falsy), render pages opened in a browser tab (render errors
are caught and swallowed), and otherwise delete the page's output when
`deleteOtherFiles` is set. -/
def raof (env : Env) (trigger : String) (deleteOther : Bool) :
    EngineState → List (String × WatchPage) → EngineState × List REvent
  | s, [] => (s, [])
  | s, (sourceFilePath, page) :: rest =>
    if trigger ≠ "" ∧ trigger = sourceFilePath then
      raof env trigger deleteOther s rest
    else if 0 < page.openTabs then
      let r := renderFile env s sourceFilePath
      let k := raof env trigger deleteOther r.1 rest
      (k.1, r.2.1 ++ k.2)
    else if deleteOther then
      let d := deleteOutputOf env s sourceFilePath
      let k := raof env trigger deleteOther d.1 rest
      (k.1, d.2 ++ k.2)
    else
      raof env trigger deleteOther s rest

/-- Model of `Engine.renderAllOpenedFiles` (Engine.js:351-377). -/
def renderAllOpenedFiles (env : Env) (s : EngineState) (deleteOtherFiles : Bool)
    (triggerSourceFilePath : String) : EngineState × List REvent :=
  raof env triggerSourceFilePath deleteOtherFiles s s.pages

def wsRegisterTabPath : String := "/ws-register-tab.js"

/-- The on-demand `serve` hook of `registerTabPlugin` (Engine.js:150-178):
answer the register-tab script directly; otherwise resolve the URL to a
source file, and when its output file does not exist yet, update the rocket
header, then inside a try/catch render the file, register it in the page
tree, save the tree and — when the save left `needsAnotherRenderingPass`
set — render the triggering file once more, sweep all opened files with the
triggering file as skip target, and reset the flag. -/
def serve (env : Env) (s : EngineState) (url : String) : EngineState × List REvent :=
  if url = wsRegisterTabPath then (s, [])
  else
    match env.urlToSource url with
    | none => (s, [])
    | some sourceFilePath =>
      if env.outputOf sourceFilePath ∈ s.outputFiles then (s, [])
      else
        let r1 := renderFile env s sourceFilePath
        if r1.2.2 = false then (r1.1, REvent.updatedHeader sourceFilePath :: r1.2.1)
        else
          let rel := env.relOf sourceFilePath
          let t2 := PageTree.save env (r1.1.pageTree.add rel)
          let s2 := { r1.1 with pageTree := t2 }
          let e2 := [REvent.addedToTree rel, REvent.savedTree]
          if t2.needsAnotherRenderingPass then
            let r3 := renderFile env s2 sourceFilePath
            if r3.2.2 = false then
              (r3.1, REvent.updatedHeader sourceFilePath :: (r1.2.1 ++ e2 ++ r3.2.1))
            else
              let r4 := raof env sourceFilePath true r3.1 r3.1.pages
              ({ r4.1 with pageTree := { r4.1.pageTree with needsAnotherRenderingPass := false } },
               REvent.updatedHeader sourceFilePath :: (r1.2.1 ++ e2 ++ r3.2.1 ++ r4.2))
          else
            (s2, REvent.updatedHeader sourceFilePath :: (r1.2.1 ++ e2))

/-- The `onPageSavedOrOpenedTabAndServerDependencyChanged` watch callback
(Engine.js:277-300): update the rocket header, then inside a try/catch
render the page, register it in the page tree, save the tree, and — when
`needsAnotherRenderingPass` is set — render the page once more, sweep all
opened files skipping the triggering page, and reset the flag. -/
def onPageSavedOrOpenedTabAndServerDependencyChanged (env : Env) (s : EngineState)
    (sourceFilePath : String) : EngineState × List REvent :=
  let r1 := renderFile env s sourceFilePath
  if r1.2.2 = false then (r1.1, REvent.updatedHeader sourceFilePath :: r1.2.1)
  else
    let rel := env.relOf sourceFilePath
    let t2 := PageTree.save env (r1.1.pageTree.add rel)
    let s2 := { r1.1 with pageTree := t2 }
    let e2 := [REvent.addedToTree rel, REvent.savedTree]
    if t2.needsAnotherRenderingPass then
      let r3 := renderFile env s2 sourceFilePath
      if r3.2.2 = false then
        (r3.1, REvent.updatedHeader sourceFilePath :: (r1.2.1 ++ e2 ++ r3.2.1))
      else
        let r4 := raof env sourceFilePath true r3.1 r3.1.pages
        ({ r4.1 with pageTree := { r4.1.pageTree with needsAnotherRenderingPass := false } },
         REvent.updatedHeader sourceFilePath :: (r1.2.1 ++ e2 ++ r3.2.1 ++ r4.2))
    else
      (s2, REvent.updatedHeader sourceFilePath :: (r1.2.1 ++ e2))

/-- The `onPageServerDependencySaved` watch callback (Engine.js:301-308):
update the rocket header and clear the now-outdated output file; no render
and no page-tree access. -/
def onPageServerDependencySaved (env : Env) (s : EngineState) (sourceFilePath : String) :
    EngineState × List REvent :=
  let d := deleteOutputOf env s sourceFilePath
  (d.1, REvent.updatedHeader sourceFilePath :: d.2)

/-- The `onPageDeleted` watch callback (Engine.js:309-313): delete the
page's output file. -/
def onPageDeleted (env : Env) (s : EngineState) (sourceFilePath : String) :
    EngineState × List REvent :=
  deleteOutputOf env s sourceFilePath

/-- First loop of `Engine.build` (Engine.js:83-87): per gathered source
file, update the rocket header, render it (no try/catch — a rejection aborts
the whole build) and add it to the page tree.  The final `Bool` reports
whether the loop aborted on a rejected render. -/
def buildPass1 (env : Env) : EngineState → List String → EngineState × List REvent × Bool
  | s, [] => (s, [], false)
  | s, f :: rest =>
    let r := renderFile env s f
    if r.2.2 = false then (r.1, [REvent.updatedHeader f] ++ r.2.1, true)
    else
      let s2 := { r.1 with pageTree := r.1.pageTree.add (env.relOf f) }
      let k := buildPass1 env s2 rest
      (k.1, ([REvent.updatedHeader f] ++ r.2.1 ++ [REvent.addedToTree (env.relOf f)]) ++ k.2.1,
       k.2.2)

/-- Second loop of `Engine.build` (Engine.js:92-94): re-render every source
file (again without try/catch). -/
def buildPass2 (env : Env) : EngineState → List String → EngineState × List REvent × Bool
  | s, [] => (s, [], false)
  | s, f :: rest =>
    let r := renderFile env s f
    if r.2.2 = false then (r.1, r.2.1, true)
    else
      let k := buildPass2 env r.1 rest
      (k.1, r.2.1 ++ k.2.1, k.2.2)

/-- The state `Engine.build` starts from: a fresh `PageTree` (Engine.js:77)
and an output directory cleared by `prepare` (Engine.js:105-114); no watcher
runs during a build. -/
def initialBuildState : EngineState :=
  { outputFiles := [], pageTree := PageTree.empty, pages := [] }

/-- Model of `Engine.build` (Engine.js:75-99): start from a fresh page tree and an
empty (cleared) output directory; when at least one source file was
gathered, run the first render-and-register loop, save the tree once, and if
the save reported `pageTreeChangedOnSave`, render every file once more.  The
final `Bool` reports whether a rejected render aborted the build. -/
def build (env : Env) (sourceFiles : List String) : EngineState × List REvent × Bool :=
  if sourceFiles = [] then (initialBuildState, [], false)
  else
    let p1 := buildPass1 env initialBuildState sourceFiles
    if p1.2.2 then p1
    else
      let t := PageTree.save env p1.1.pageTree
      let s1 := { p1.1 with pageTree := t }
      if t.pageTreeChangedOnSave then
        let p2 := buildPass2 env s1 sourceFiles
        (p2.1, p1.2.1 ++ [REvent.savedTree] ++ p2.2.1, p2.2.2)
      else
        (s1, p1.2.1 ++ [REvent.savedTree], false)

/-! ### POSIX path model for `devServerAdjustAssetUrls` (Engine.js:182-200)

`adjustAssetUrl` uses Node's `path.dirname`, `path.join` and `path.relative`
on POSIX-style absolute paths.  These platform functions are modelled over
`/`-separated segments: `splitSegs` splits a character list at `/`,
`resolveSegs` normalises an absolute path's segments (dropping empty and `.`
segments and resolving `..`, which at the root is dropped, as Node does for
absolute paths), `joinSegs` re-joins segments with `/`. -/

def splitSegs : List Char → List (List Char)
  | [] => [[]]
  | c :: rest =>
    if c = '/' then [] :: splitSegs rest
    else
      match splitSegs rest with
      | [] => [[c]]
      | s :: ss => (c :: s) :: ss

def resolveSegs (acc : List (List Char)) : List (List Char) → List (List Char)
  | [] => acc.reverse
  | s :: rest =>
    if s = [] ∨ s = ['.'] then resolveSegs acc rest
    else if s = ['.', '.'] then resolveSegs acc.tail rest
    else resolveSegs (s :: acc) rest

def joinSegs : List (List Char) → List Char
  | [] => []
  | [s] => s
  | s :: t :: rest => s ++ '/' :: joinSegs (t :: rest)

/-- The resolved (normalised) segment list of an absolute POSIX path. -/
def absSegs (p : String) : List (List Char) := resolveSegs [] (splitSegs p.data)

/-- Node `path.dirname` for the absolute output file paths used here: all
segments but the last. -/
def dirname (p : String) : String := String.mk (joinSegs ((splitSegs p.data).dropLast))

/-- Node `path.join(a, b)` for an absolute `a`: concatenation with a `/`
separator; the normalisation Node performs is deferred to `absSegs`, whose
resolution is invariant under it. -/
def joinPath (a b : String) : String := a ++ "/" ++ b

/-- Drop the common prefix of two segment lists (the core of Node
`path.relative`). -/
def dropCommon : List (List Char) → List (List Char) → List (List Char) × List (List Char)
  | a :: as, b :: bs => if a = b then dropCommon as bs else (a :: as, b :: bs)
  | as, bs => (as, bs)

/-- Node `path.relative(fromPath, toPath)` for absolute POSIX paths: resolve
both, drop the common prefix, then one `..` per remaining `fromPath` segment
followed by the remaining `toPath` segments. -/
def relativePath (fromPath toPath : String) : String :=
  let d := dropCommon (absSegs fromPath) (absSegs toPath)
  String.mk (joinSegs (d.1.map (fun _ => ['.', '.']) ++ d.2))

/-- The `while (relPath.startsWith('../'))` loop of `adjustAssetUrl`
(Engine.js:192-195): strip leading `../` prefixes, counting them. -/
def stripParents : List Char → Nat × List Char
  | c1 :: c2 :: c3 :: rest =>
    if c1 = '.' ∧ c2 = '.' ∧ c3 = '/' then
      let r := stripParents rest
      (r.1 + 1, r.2)
    else (0, c1 :: c2 :: c3 :: rest)
  | [] => (0, [])
  | [c1] => (0, [c1])
  | [c1, c2] => (0, [c1, c2])

/-- The test `url.startsWith('./') || url.startsWith('../')` (Engine.js:188). -/
def isRelativeUrl (url : String) : Bool :=
  match url.data with
  | '.' :: '/' :: _ => true
  | '.' :: '.' :: '/' :: _ => true
  | _ => false

def wdsOutsideRootBase : String := "/__wds-outside-root__/"

/-- The `adjustAssetUrl` callback of `devServerAdjustAssetUrls`
(Engine.js:184-199): relative URLs are resolved against the directory of the
page's output file, taken relative to the output root, their leading `../`
segments are counted and stripped, and the result is emitted into the
`/__wds-outside-root__/<count>/<rest>` namespace; all other URLs are
returned unchanged. -/
def adjustAssetUrl (outputDir outputFilePath url : String) : String :=
  if isRelativeUrl url then
    let assetFilePath := joinPath (dirname outputFilePath) url
    let relPath := relativePath outputDir assetFilePath
    let r := stripParents relPath.data
    wdsOutsideRootBase ++ toString r.1 ++ "/" ++ String.mk r.2
  else url

/-! ### The prepare phase's plugin public-folder loop (Engine.js:121-134)
and the launch preset's plugin (`src/unnamed/part_000`). -/

/-- A registered engine plugin as `Engine.prepare` sees it:
`plugin.constructor.name` and the duck-typed static
`plugin.constructor.publicFolder`, which is absent (`none`) when the plugin
class does not declare it. -/
structure EnginePlugin where
  name : String
  publicFolder : Option String
deriving DecidableEq, Repr

def emptyString : String := ""

/-- JS truthiness of the `publicFolder` field: `undefined` and the empty
string are falsy. -/
def truthyFolder : Option String → Bool
  | none => false
  | some f => f ≠ ""

/-- Observable effects of the prepare phase's plugin loop. -/
inductive PrepEvent where
  | copiedPublicFolder (folder : String)
  | loggedMissingFolder (pluginName : String) (folder : Option String)
deriving DecidableEq, Repr

/-- The plugin loop of `Engine.prepare` (Engine.js:122-133): for each
registered plugin, if `publicFolder` is truthy and exists on disk, copy it
into the output dir; otherwise log that the plugin defined a public folder
that does not exist.  The loop never throws. -/
def preparePluginPublicFolders (existsSync : String → Bool) (plugins : List EnginePlugin) :
    List PrepEvent :=
  plugins.map (fun plugin =>
    if truthyFolder plugin.publicFolder && existsSync (plugin.publicFolder.getD emptyString) then
      PrepEvent.copiedPublicFolder (plugin.publicFolder.getD emptyString)
    else
      PrepEvent.loggedMissingFolder plugin.name plugin.publicFolder)

def enginePluginLaunchName : String := "EnginePluginLaunch"

def enginePluginLaunchPublicFolder : String := "/packages/launch/__public"

/-- Model of `EnginePluginLaunch` (src/unnamed/part_000:48-50): the launch preset's
engine plugin, whose static `publicFolder` is the `__public` directory
resolved next to the module (represented here by a concrete absolute
path). -/
def EnginePluginLaunch : EnginePlugin :=
  { name := enginePluginLaunchName, publicFolder := some enginePluginLaunchPublicFolder }

/-! ### Helper lemmas about the render primitives and the cascade trace. -/

/-- The events `renderFile` emits, as a function of the environment only. -/
def renderEvents (env : Env) (src : String) : List REvent :=
  if env.renderOk src then [REvent.rendered src] else [REvent.renderFailed src]

lemma renderFile_events (env : Env) (s : EngineState) (src : String) :
    (renderFile env s src).2.1 = renderEvents env src := by
  by_cases h : env.renderOk src <;> simp [renderFile, renderEvents, h]

lemma renderFile_ok (env : Env) (s : EngineState) (src : String) :
    (renderFile env s src).2.2 = env.renderOk src := by
  by_cases h : env.renderOk src <;> simp [renderFile, h]

lemma renderFile_pages (env : Env) (s : EngineState) (src : String) :
    (renderFile env s src).1.pages = s.pages := by
  by_cases h : env.renderOk src <;> simp [renderFile, h]

lemma renderFile_pageTree (env : Env) (s : EngineState) (src : String) :
    (renderFile env s src).1.pageTree = s.pageTree := by
  by_cases h : env.renderOk src <;> simp [renderFile, h]

lemma pageTree_add_pass (t : PageTree) (rel : String) :
    (t.add rel).needsAnotherRenderingPass = t.needsAnotherRenderingPass := by
  by_cases h : rel ∈ t.entries <;> simp [PageTree.add, h]

/-- The events one `watcher.pages` entry contributes to the cascade trace;
they depend only on the environment, the skip target and the entry itself,
never on the accumulated state. -/
def stepTrace (env : Env) (trigger : String) (deleteOther : Bool) (e : String × WatchPage) :
    List REvent :=
  if trigger ≠ "" ∧ trigger = e.1 then []
  else if 0 < e.2.openTabs then renderEvents env e.1
  else if deleteOther then [REvent.deletedOutput e.1]
  else []

lemma raof_trace (env : Env) (trigger : String) (d : Bool) :
    ∀ (pages : List (String × WatchPage)) (s : EngineState),
      (raof env trigger d s pages).2 = pages.flatMap (stepTrace env trigger d) := by
  intro pages
  induction pages with
  | nil => intro s; simp [raof]
  | cons e rest ih =>
    intro s
    obtain ⟨src, page⟩ := e
    by_cases h1 : trigger ≠ "" ∧ trigger = src
    · obtain ⟨htr, heq⟩ := h1
      subst heq
      simp [raof, stepTrace, htr, ih]
    · by_cases h2 : 0 < page.openTabs
      · simp [raof, stepTrace, h1, h2, ih, renderFile_events]
      · cases d with
        | true => simp [raof, stepTrace, deleteOutputOf, h1, h2, ih]
        | false => simp [raof, stepTrace, h1, h2, ih]

lemma raof_pageTree (env : Env) (trigger : String) (d : Bool) :
    ∀ (pages : List (String × WatchPage)) (s : EngineState),
      (raof env trigger d s pages).1.pageTree = s.pageTree := by
  intro pages
  induction pages with
  | nil => intro s; simp [raof]
  | cons e rest ih =>
    intro s
    obtain ⟨src, page⟩ := e
    by_cases h1 : trigger ≠ "" ∧ trigger = src
    · obtain ⟨htr, heq⟩ := h1
      subst heq
      simp [raof, htr, ih]
    · by_cases h2 : 0 < page.openTabs
      · simp [raof, h1, h2, ih, renderFile_pageTree]
      · cases d with
        | true => simp [raof, deleteOutputOf, h1, h2, ih]
        | false => simp [raof, h1, h2, ih]

lemma stepTrace_count_rendered_ne (env : Env) (trigger : String) (d : Bool) (p : String)
    (e : String × WatchPage) (hne : p ≠ e.1) :
    (stepTrace env trigger d e).count (REvent.rendered p) = 0 := by
  unfold stepTrace renderEvents
  split
  · simp
  · split
    · split <;> simp [List.count_cons, hne]
    · split <;> simp [List.count_cons]

lemma stepTrace_count_rendered_self (env : Env) (trigger : String) (d : Bool) (p : String)
    (pg : WatchPage) (hok : env.renderOk p = true) (hopen : 0 < pg.openTabs)
    (hskip : ¬(trigger ≠ "" ∧ trigger = p)) :
    (stepTrace env trigger d (p, pg)).count (REvent.rendered p) = 1 := by
  simp [stepTrace, renderEvents, hok, hopen, hskip]

lemma flatMap_count_rendered_notmem (env : Env) (trigger : String) (d : Bool) (p : String) :
    ∀ pages : List (String × WatchPage), p ∉ pages.map Prod.fst →
      ((pages.flatMap (stepTrace env trigger d)).count (REvent.rendered p)) = 0 := by
  intro pages
  induction pages with
  | nil => simp
  | cons e rest ih =>
    intro hnm
    simp only [List.map_cons, List.mem_cons, not_or] at hnm
    rw [List.flatMap_cons, List.count_append, ih hnm.2,
      stepTrace_count_rendered_ne env trigger d p e hnm.1]

lemma flatMap_count_rendered_open (env : Env) (trigger : String) (d : Bool) (p : String)
    (pg : WatchPage) :
    ∀ pages : List (String × WatchPage), (pages.map Prod.fst).Nodup → (p, pg) ∈ pages →
      0 < pg.openTabs → env.renderOk p = true → ¬(trigger ≠ "" ∧ trigger = p) →
      ((pages.flatMap (stepTrace env trigger d)).count (REvent.rendered p)) = 1 := by
  intro pages
  induction pages with
  | nil => intro _ hmem; simp at hmem
  | cons e rest ih =>
    intro hnd hmem hopen hok hskip
    simp only [List.map_cons, List.nodup_cons] at hnd
    rw [List.flatMap_cons, List.count_append]
    rcases List.mem_cons.mp hmem with heq | hrest
    · have hp : p = e.1 := by rw [← heq]
      have hrest0 : p ∉ rest.map Prod.fst := hp ▸ hnd.1
      rw [flatMap_count_rendered_notmem env trigger d p rest hrest0, ← heq,
        stepTrace_count_rendered_self env trigger d p pg hok hopen hskip]
    · have hne : p ≠ e.1 := by
        intro hcontra
        exact hnd.1 (hcontra ▸ (List.mem_map_of_mem Prod.fst hrest))
      rw [stepTrace_count_rendered_ne env trigger d p e hne,
        ih hnd.2 hrest hopen hok hskip]

lemma flatMap_count_rendered_trigger (env : Env) (d : Bool) (trigger : String)
    (htr : trigger ≠ "") :
    ∀ pages : List (String × WatchPage),
      ((pages.flatMap (stepTrace env trigger d)).count (REvent.rendered trigger)) = 0 := by
  intro pages
  induction pages with
  | nil => simp
  | cons e rest ih =>
    rw [List.flatMap_cons, List.count_append, ih]
    by_cases hne : trigger = e.1
    · have h1 : trigger ≠ "" ∧ trigger = e.1 := ⟨htr, hne⟩
      unfold stepTrace
      rw [if_pos h1]
      simp
    · rw [stepTrace_count_rendered_ne env trigger d trigger e hne]

lemma stepTrace_mem_key (env : Env) (trigger : String) (d : Bool) (e : String × WatchPage)
    (x : REvent) (hx : x ∈ stepTrace env trigger d e) :
    x = REvent.rendered e.1 ∨ x = REvent.renderFailed e.1 ∨ x = REvent.deletedOutput e.1 := by
  unfold stepTrace renderEvents at hx
  split at hx
  · simp at hx
  · split at hx
    · split at hx <;> simp at hx <;> simp [hx]
    · split at hx <;> simp at hx
      simp [hx]

/-- Execution of the on-demand `serve` hook when the URL resolves to a
source file, the output file is missing, renders succeed and the saved tree
comes back with `needsAnotherRenderingPass` set: the full event trace and
the reset flag. -/
lemma serve_run (env : Env) (s : EngineState) (url sourceFilePath : String)
    (hws : url ≠ wsRegisterTabPath)
    (hsrc : env.urlToSource url = some sourceFilePath)
    (hmiss : env.outputOf sourceFilePath ∉ s.outputFiles)
    (hok : ∀ q, env.renderOk q = true)
    (hpass : (PageTree.save env
      (s.pageTree.add (env.relOf sourceFilePath))).needsAnotherRenderingPass = true) :
    (serve env s url).2 =
      REvent.updatedHeader sourceFilePath :: REvent.rendered sourceFilePath ::
      REvent.addedToTree (env.relOf sourceFilePath) :: REvent.savedTree ::
      REvent.rendered sourceFilePath ::
      s.pages.flatMap (stepTrace env sourceFilePath true) ∧
    (serve env s url).1.pageTree.needsAnotherRenderingPass = false := by
  have hok1 := hok sourceFilePath
  constructor <;>
    simp [serve, hws, hsrc, hmiss, renderFile, hok1, hpass, raof_trace, raof_pageTree]

/-- Execution of the on-demand `serve` hook when the URL resolves to a
source file, the output file is missing, the render succeeds and the saved
tree comes back without `needsAnotherRenderingPass`: render, add and save
still happen, no second render and no sweep follow, and the flag is `false`
afterwards. -/
lemma serve_run_nochange (env : Env) (s : EngineState) (url sourceFilePath : String)
    (hws : url ≠ wsRegisterTabPath)
    (hsrc : env.urlToSource url = some sourceFilePath)
    (hmiss : env.outputOf sourceFilePath ∉ s.outputFiles)
    (hok1 : env.renderOk sourceFilePath = true)
    (hnopass : (PageTree.save env
      (s.pageTree.add (env.relOf sourceFilePath))).needsAnotherRenderingPass = false) :
    (serve env s url).2 =
      [REvent.updatedHeader sourceFilePath, REvent.rendered sourceFilePath,
        REvent.addedToTree (env.relOf sourceFilePath), REvent.savedTree] ∧
    (serve env s url).1.pageTree.needsAnotherRenderingPass = false := by
  constructor <;>
    simp [serve, hws, hsrc, hmiss, renderFile, hok1, hnopass]

/-- Execution of the watch-event handler when renders succeed and the tree
save detects a structural change: the full event trace and the reset flag. -/
lemma watch_handler_run (env : Env) (s : EngineState) (sourceFilePath : String)
    (hok : ∀ q, env.renderOk q = true)
    (hch : env.structuralChange ((s.pageTree.add (env.relOf sourceFilePath)).entries) = true) :
    (onPageSavedOrOpenedTabAndServerDependencyChanged env s sourceFilePath).2 =
      REvent.updatedHeader sourceFilePath :: REvent.rendered sourceFilePath ::
      REvent.addedToTree (env.relOf sourceFilePath) :: REvent.savedTree ::
      REvent.rendered sourceFilePath ::
      s.pages.flatMap (stepTrace env sourceFilePath true) ∧
    (onPageSavedOrOpenedTabAndServerDependencyChanged env s sourceFilePath).1.pageTree.needsAnotherRenderingPass = false := by
  have hok1 := hok sourceFilePath
  constructor <;>
    simp [onPageSavedOrOpenedTabAndServerDependencyChanged, renderFile, hok1, PageTree.save,
      hch, raof_trace, raof_pageTree]

/-- C1: when an HTTP request resolves to a source file whose output file
does not yet exist, the on-demand serve hook renders that file, adds it to
the page tree and saves the tree; exactly when the save left
`needsAnotherRenderingPass` set, it renders the triggering file exactly once
more (total render count 2 instead of 1) and sweeps every other currently
open page exactly once while skipping the triggering file (cascade render
count 1 instead of 0); in both cases `needsAnotherRenderingPass` is `false`
afterwards. -/
theorem serve_on_demand_renders_and_cascades (env : Env) (s : EngineState)
    (url sourceFilePath p : String) (pg : WatchPage)
    (hws : url ≠ wsRegisterTabPath)
    (hsrc : env.urlToSource url = some sourceFilePath)
    (hmiss : env.outputOf sourceFilePath ∉ s.outputFiles)
    (hok : ∀ q, env.renderOk q = true)
    (hnd : (s.pages.map Prod.fst).Nodup)
    (hne : sourceFilePath ≠ "")
    (hp : (p, pg) ∈ s.pages) (hpne : p ≠ sourceFilePath) (hopen : 0 < pg.openTabs) :
    ((serve env s url).2.count (REvent.rendered sourceFilePath) =
      (if (PageTree.save env
          (s.pageTree.add (env.relOf sourceFilePath))).needsAnotherRenderingPass
        then 2 else 1)) ∧
    ((serve env s url).2.count (REvent.rendered p) =
      (if (PageTree.save env
          (s.pageTree.add (env.relOf sourceFilePath))).needsAnotherRenderingPass
        then 1 else 0)) ∧
    (REvent.addedToTree (env.relOf sourceFilePath) ∈ (serve env s url).2) ∧
    (REvent.savedTree ∈ (serve env s url).2) ∧
    ((serve env s url).1.pageTree.needsAnotherRenderingPass = false) := by
  by_cases hpass : (PageTree.save env
      (s.pageTree.add (env.relOf sourceFilePath))).needsAnotherRenderingPass = true
  · obtain ⟨htrace, hflag⟩ := serve_run env s url sourceFilePath hws hsrc hmiss hok hpass
    have hskip : ¬(sourceFilePath ≠ "" ∧ sourceFilePath = p) := fun hc => hpne hc.2.symm
    refine ⟨?_, ?_, ?_, ?_, hflag⟩
    · rw [htrace]
      simp [hpass, List.count_cons, hpne,
        flatMap_count_rendered_trigger env true sourceFilePath hne s.pages]
    · rw [htrace]
      simp [hpass, List.count_cons, hpne,
        flatMap_count_rendered_open env sourceFilePath true p pg s.pages hnd hp hopen
          (hok p) hskip]
    · rw [htrace]; simp
    · rw [htrace]; simp
  · rw [Bool.not_eq_true] at hpass
    obtain ⟨htrace, hflag⟩ :=
      serve_run_nochange env s url sourceFilePath hws hsrc hmiss (hok sourceFilePath) hpass
    refine ⟨?_, ?_, ?_, ?_, hflag⟩
    · rw [htrace]
      simp [hpass, List.count_cons]
    · rw [htrace]
      simp [hpass, List.count_cons, hpne]
    · rw [htrace]; simp
    · rw [htrace]; simp

/-- C2: a watch event on page `X` whose render triggers a structural
page-tree change re-renders every other currently open page exactly once in
the cascade, and `X` itself is rendered exactly twice in total for the event
(the initial render plus exactly one re-render; the sweep skips it). -/
theorem watch_event_cascade_counts (env : Env) (s : EngineState) (x p : String)
    (pg : WatchPage)
    (hok : ∀ q, env.renderOk q = true)
    (hch : env.structuralChange ((s.pageTree.add (env.relOf x)).entries) = true)
    (hnd : (s.pages.map Prod.fst).Nodup)
    (hxne : x ≠ "")
    (hp : (p, pg) ∈ s.pages) (hpne : p ≠ x) (hopen : 0 < pg.openTabs) :
    ((onPageSavedOrOpenedTabAndServerDependencyChanged env s x).2.count
        (REvent.rendered p) = 1) ∧
    ((onPageSavedOrOpenedTabAndServerDependencyChanged env s x).2.count
        (REvent.rendered x) = 2) := by
  obtain ⟨htrace, _⟩ := watch_handler_run env s x hok hch
  have hskip : ¬(x ≠ "" ∧ x = p) := fun hc => hpne hc.2.symm
  refine ⟨?_, ?_⟩
  · rw [htrace]
    simp [List.count_cons, hpne,
      flatMap_count_rendered_open env x true p pg s.pages hnd hp hopen (hok p) hskip]
  · rw [htrace]
    simp [List.count_cons, flatMap_count_rendered_trigger env true x hxne s.pages]

/-- In a JS `Map` snapshot the keys are unique: two entries with the same
key are the same entry. -/
lemma key_nodup_eq {l : List (String × WatchPage)} (hnd : (l.map Prod.fst).Nodup)
    {p : String} {a b : WatchPage} (ha : (p, a) ∈ l) (hb : (p, b) ∈ l) : a = b := by
  induction l with
  | nil => simp at ha
  | cons e rest ih =>
    simp only [List.map_cons, List.nodup_cons] at hnd
    rcases List.mem_cons.mp ha with h1 | h1 <;> rcases List.mem_cons.mp hb with h2 | h2
    · rw [← h1] at h2
      exact ((Prod.mk.injEq p b p a).mp h2).2.symm
    · exfalso
      apply hnd.1
      have hkey : e.1 = p := by rw [← h1]
      rw [hkey]
      exact List.mem_map_of_mem Prod.fst h2
    · exfalso
      apply hnd.1
      have hkey : e.1 = p := by rw [← h2]
      rw [hkey]
      exact List.mem_map_of_mem Prod.fst h1
    · exact ih hnd.2 h1 h2

/-- C9: in the structural re-render cascade with its default
`deleteOtherFiles = true`, a tracked page that is neither the skip target
nor open in any browser tab gets its output file deleted and is not
(re-)rendered, not even unsuccessfully. -/
theorem cascade_deletes_unopened_pages (env : Env) (s : EngineState) (trigger p : String)
    (pg : WatchPage)
    (hnd : (s.pages.map Prod.fst).Nodup)
    (hp : (p, pg) ∈ s.pages)
    (hclosed : pg.openTabs = 0)
    (hskip : ¬(trigger ≠ "" ∧ trigger = p)) :
    (REvent.deletedOutput p ∈ (renderAllOpenedFiles env s true trigger).2) ∧
    (REvent.rendered p ∉ (renderAllOpenedFiles env s true trigger).2) ∧
    (REvent.renderFailed p ∉ (renderAllOpenedFiles env s true trigger).2) := by
  have htr : (renderAllOpenedFiles env s true trigger).2 =
      s.pages.flatMap (stepTrace env trigger true) := by
    simp [renderAllOpenedFiles, raof_trace]
  have hstep : stepTrace env trigger true (p, pg) = [REvent.deletedOutput p] := by
    simp [stepTrace, hskip, hclosed]
  refine ⟨?_, ?_, ?_⟩
  · rw [htr]
    exact List.mem_flatMap.mpr ⟨(p, pg), hp, by rw [hstep]; simp⟩
  · rw [htr]
    intro hx
    obtain ⟨e, he, hxe⟩ := List.mem_flatMap.mp hx
    rcases stepTrace_mem_key env trigger true e _ hxe with hc | hc | hc
    · have hpe : p = e.1 := by simpa using hc
      have hee : (p, e.2) ∈ s.pages := by rw [hpe]; exact he
      have hpg : e.2 = pg := key_nodup_eq hnd hee hp
      have hes : e = (p, pg) := by rw [← hpg, hpe]
      rw [hes, hstep] at hxe
      simp at hxe
    · simp at hc
    · simp at hc
  · rw [htr]
    intro hx
    obtain ⟨e, he, hxe⟩ := List.mem_flatMap.mp hx
    rcases stepTrace_mem_key env trigger true e _ hxe with hc | hc | hc
    · simp at hc
    · have hpe : p = e.1 := by simpa using hc
      have hee : (p, e.2) ∈ s.pages := by rw [hpe]; exact he
      have hpg : e.2 = pg := key_nodup_eq hnd hee hp
      have hes : e = (p, pg) := by rw [← hpg, hpe]
      rw [hes, hstep] at hxe
      simp at hxe
    · simp at hc

/-- C10: an on-demand request whose URL does not resolve to a source file,
or whose resolved source file already has its output file on disk, changes
nothing: the serve hook returns the state unchanged with an empty event
trace. -/
theorem serve_frame_no_mutation (env : Env) (s : EngineState) (url : String)
    (h : env.urlToSource url = none ∨
      ∃ src, env.urlToSource url = some src ∧ env.outputOf src ∈ s.outputFiles) :
    serve env s url = (s, []) := by
  unfold serve
  by_cases hws : url = wsRegisterTabPath
  · rw [if_pos hws]
  · rw [if_neg hws]
    rcases h with h | ⟨src, hsrc, hmem⟩
    · simp [h]
    · simp [hsrc, hmem]

/-- C5: a change to a server-side dependency of a page that is not itself
open deletes that page's cached output file, performs no render (successful
or failed), and mutates neither the page tree nor the watcher's page map;
the only other effect is the rocket-header update. -/
theorem dependency_only_change_deletes_cache_only (env : Env) (s : EngineState)
    (src p : String) :
    onPageServerDependencySaved env s src =
      ({ s with outputFiles := s.outputFiles.filter (fun o => o ≠ env.outputOf src) },
       [REvent.updatedHeader src, REvent.deletedOutput src]) ∧
    (onPageServerDependencySaved env s src).1.pageTree = s.pageTree ∧
    (onPageServerDependencySaved env s src).1.pages = s.pages ∧
    REvent.rendered p ∉ (onPageServerDependencySaved env s src).2 ∧
    REvent.renderFailed p ∉ (onPageServerDependencySaved env s src).2 ∧
    REvent.addedToTree p ∉ (onPageServerDependencySaved env s src).2 ∧
    REvent.savedTree ∉ (onPageServerDependencySaved env s src).2 := by
  refine ⟨rfl, rfl, rfl, ?_, ?_, ?_, ?_⟩ <;>
    simp [onPageServerDependencySaved, deleteOutputOf]

/-- C4: handling a page-deletion watch event removes the page's output
file and performs no render; and a page whose source no longer exists at
the next tree save is dropped from the persisted page tree. -/
theorem page_deleted_removes_output_and_tree_entry (env : Env) (s : EngineState)
    (src p : String) (t : PageTree)
    (hgone : env.keepOnSave (env.relOf src) = false) :
    (env.outputOf src ∉ (onPageDeleted env s src).1.outputFiles) ∧
    (REvent.deletedOutput src ∈ (onPageDeleted env s src).2) ∧
    (REvent.rendered p ∉ (onPageDeleted env s src).2) ∧
    (env.relOf src ∉ (PageTree.save env t).entries) := by
  refine ⟨?_, ?_, ?_, ?_⟩
  · simp [onPageDeleted, deleteOutputOf]
  · simp [onPageDeleted, deleteOutputOf]
  · simp [onPageDeleted, deleteOutputOf]
  · simp [PageTree.save, List.mem_filter, hgone]

/-! ### Build-loop lemmas (for C3 and C6). -/

/-- The per-file events of the first build loop. -/
def pass1Events (env : Env) (f : String) : List REvent :=
  [REvent.updatedHeader f, REvent.rendered f, REvent.addedToTree (env.relOf f)]

lemma buildPass1_ok (env : Env) (hok : ∀ q, env.renderOk q = true) :
    ∀ (files : List String) (s : EngineState),
      (buildPass1 env s files).2.1 = files.flatMap (pass1Events env) ∧
      (buildPass1 env s files).2.2 = false := by
  intro files
  induction files with
  | nil => intro s; simp [buildPass1]
  | cons f rest ih =>
    intro s
    have hf := hok f
    constructor <;> simp [buildPass1, pass1Events, renderFile, hf, ih]

lemma buildPass2_ok (env : Env) (hok : ∀ q, env.renderOk q = true) :
    ∀ (files : List String) (s : EngineState),
      (buildPass2 env s files).2.1 = files.map (fun f => REvent.rendered f) ∧
      (buildPass2 env s files).2.2 = false := by
  intro files
  induction files with
  | nil => intro s; simp [buildPass2]
  | cons f rest ih =>
    intro s
    have hf := hok f
    constructor <;> simp [buildPass2, renderFile, hf, ih]

lemma buildPass2_pageTree (env : Env) :
    ∀ (files : List String) (s : EngineState),
      (buildPass2 env s files).1.pageTree = s.pageTree := by
  intro files
  induction files with
  | nil => intro s; simp [buildPass2]
  | cons f rest ih =>
    intro s
    by_cases hf : env.renderOk f
    · simp [buildPass2, renderFile, hf, ih]
    · simp [buildPass2, renderFile, hf]

lemma count_rendered_pass1trace (env : Env) (f : String) :
    ∀ files : List String,
      ((files.flatMap (pass1Events env)).count (REvent.rendered f)) = files.count f := by
  intro files
  induction files with
  | nil => simp
  | cons g rest ih =>
    rw [List.flatMap_cons, List.count_append, ih]
    by_cases hfg : g = f
    · subst hfg; simp [pass1Events, List.count_cons]; omega
    · simp [pass1Events, List.count_cons, hfg]

lemma count_rendered_pass2trace (f : String) :
    ∀ files : List String,
      ((files.map (fun g => REvent.rendered g)).count (REvent.rendered f)) = files.count f := by
  intro files
  induction files with
  | nil => simp
  | cons g rest ih =>
    by_cases hfg : g = f
    · subst hfg; simp [List.count_cons, ih]
    · simp [List.count_cons, hfg, ih]

lemma savedTree_count_pass1trace (env : Env) (files : List String) :
    (files.flatMap (pass1Events env)).count REvent.savedTree = 0 := by
  rw [List.count_eq_zero]
  simp [List.mem_flatMap, pass1Events]

lemma savedTree_count_pass2trace (files : List String) :
    ((files.map (fun g => REvent.rendered g)).count REvent.savedTree) = 0 := by
  rw [List.count_eq_zero]
  simp

/-- Resolution of `build` when every render succeeds and at least one
source file was gathered. -/
lemma build_eq_of_ok (env : Env) (hok : ∀ q, env.renderOk q = true) (files : List String)
    (hne : files ≠ []) :
    build env files =
      (let p1 := buildPass1 env initialBuildState files
       let t := PageTree.save env p1.1.pageTree
       let s1 := { p1.1 with pageTree := t }
       if t.pageTreeChangedOnSave then
         let p2 := buildPass2 env s1 files
         (p2.1, p1.2.1 ++ [REvent.savedTree] ++ p2.2.1, p2.2.2)
       else (s1, p1.2.1 ++ [REvent.savedTree], false)) := by
  simp [build, hne, (buildPass1_ok env hok files initialBuildState).2]

/-- C6 (amended): a full build over a non-empty gathered file list renders
every file once, registers it in the tree, saves the tree exactly once,
renders every file exactly once more when the save reported
`pageTreeChangedOnSave`, and thus renders each file at most twice and never
aborts. -/
theorem build_renders_each_file_at_most_twice (env : Env) (files : List String) (f : String)
    (hnd : files.Nodup) (hok : ∀ q, env.renderOk q = true) (hf : f ∈ files) :
    ((build env files).2.2 = false) ∧
    ((build env files).2.1.count REvent.savedTree = 1) ∧
    (REvent.addedToTree (env.relOf f) ∈ (build env files).2.1) ∧
    ((build env files).2.1.count (REvent.rendered f) =
      (if (build env files).1.pageTree.pageTreeChangedOnSave then 2 else 1)) ∧
    ((build env files).2.1.count (REvent.rendered f) ≤ 2) := by
  have hne : files ≠ [] := List.ne_nil_of_mem hf
  have hcf : files.count f = 1 := List.count_eq_one_of_mem hnd hf
  rw [build_eq_of_ok env hok files hne]
  have hp1 := (buildPass1_ok env hok files initialBuildState).1
  have hadd : REvent.addedToTree (env.relOf f) ∈ files.flatMap (pass1Events env) :=
    List.mem_flatMap.mpr ⟨f, hf, by simp [pass1Events]⟩
  by_cases hch : (PageTree.save env
      (buildPass1 env initialBuildState files).1.pageTree).pageTreeChangedOnSave
  · have hp2 := (buildPass2_ok env hok files)
    have hpt := buildPass2_pageTree env files
    simp only [hch, if_true]
    refine ⟨by simp [hp2], ?_, ?_, ?_, ?_⟩
    · simp [List.count_append, hp1, (hp2 _).1, savedTree_count_pass1trace,
        savedTree_count_pass2trace]
    · simp only [List.mem_append]
      exact Or.inl (Or.inl (hp1 ▸ hadd))
    · rw [hpt]
      simp [hch, List.count_append, hp1, (hp2 _).1, count_rendered_pass1trace,
        count_rendered_pass2trace, hcf]
    · simp [List.count_append, hp1, (hp2 _).1, count_rendered_pass1trace,
        count_rendered_pass2trace, hcf]
  · rw [if_neg hch]
    refine ⟨rfl, ?_, ?_, ?_, ?_⟩
    · simp [List.count_append, hp1, savedTree_count_pass1trace]
    · simp only [List.mem_append]
      exact Or.inl (hp1 ▸ hadd)
    · simp [hch, List.count_append, hp1, count_rendered_pass1trace, hcf]
    · simp [List.count_append, hp1, count_rendered_pass1trace, hcf]

/-- C3 (amended): a render that throws is contained by the watch-event
handler, the on-demand serve hook and the cascade sweep — the handler and
the hook return normally having recorded the failure without touching the
page tree, and a failing page does not stop the sweep from rendering the
other open pages — but in the full build loop a render error propagates:
the build aborts and the files after the failing one are never processed. -/
theorem render_error_contained_except_in_build (env : Env) (s : EngineState)
    (src url trigger p : String) (pg : WatchPage) (rest : List String)
    (hfail : env.renderOk src = false)
    (hws : url ≠ wsRegisterTabPath)
    (hsrc : env.urlToSource url = some src)
    (hmiss : env.outputOf src ∉ s.outputFiles)
    (hnd : (s.pages.map Prod.fst).Nodup)
    (hp : (p, pg) ∈ s.pages) (hopen : 0 < pg.openTabs) (hpok : env.renderOk p = true)
    (hskip : ¬(trigger ≠ "" ∧ trigger = p)) :
    ((onPageSavedOrOpenedTabAndServerDependencyChanged env s src).2 =
      [REvent.updatedHeader src, REvent.renderFailed src]) ∧
    ((onPageSavedOrOpenedTabAndServerDependencyChanged env s src).1.pageTree = s.pageTree) ∧
    ((serve env s url).2 = [REvent.updatedHeader src, REvent.renderFailed src]) ∧
    ((renderAllOpenedFiles env s true trigger).2.count (REvent.rendered p) = 1) ∧
    ((build env (src :: rest)).2.2 = true) ∧
    ((build env (src :: rest)).2.1 = [REvent.updatedHeader src, REvent.renderFailed src]) := by
  refine ⟨?_, ?_, ?_, ?_, ?_, ?_⟩
  · simp [onPageSavedOrOpenedTabAndServerDependencyChanged, renderFile, hfail]
  · simp [onPageSavedOrOpenedTabAndServerDependencyChanged, renderFile, hfail]
  · simp [serve, hws, hsrc, hmiss, renderFile, hfail]
  · rw [renderAllOpenedFiles, raof_trace]
    exact flatMap_count_rendered_open env trigger true p pg s.pages hnd hp hopen hpok hskip
  · simp [build, buildPass1, renderFile, hfail]
  · simp [build, buildPass1, renderFile, hfail]

/-- C8 (amended): every registered plugin contributes exactly one prepare
event; when its declared public folder is truthy and exists the folder is
copied into the output root, and otherwise — including when the plugin
declares no folder at all — a missing-folder message is logged; the loop is
total, so prepare never throws here. -/
theorem prepare_plugin_folder_copy_or_log (existsSync : String → Bool)
    (plugins : List EnginePlugin) (plugin : EnginePlugin) (hmem : plugin ∈ plugins) :
    ((if truthyFolder plugin.publicFolder && existsSync (plugin.publicFolder.getD emptyString) then
        PrepEvent.copiedPublicFolder (plugin.publicFolder.getD emptyString)
      else PrepEvent.loggedMissingFolder plugin.name plugin.publicFolder) ∈
      preparePluginPublicFolders existsSync plugins) ∧
    ((preparePluginPublicFolders existsSync plugins).length = plugins.length) := by
  exact ⟨List.mem_map.mpr ⟨plugin, hmem, rfl⟩, List.length_map _ _⟩

def noFolderPluginName : String := "NoFolderPlugin"

/-- C8 counterexample: a plugin that declares no public folder at all still
triggers the missing-folder log message, so the message is not logged only
for plugins that declare a non-existing folder. -/
theorem plugin_without_declared_folder_is_still_logged :
    preparePluginPublicFolders (fun _ => true)
      [{ name := noFolderPluginName, publicFolder := none }] =
      [PrepEvent.loggedMissingFolder noFolderPluginName none] := by decide

/-! ### Segment-level facts about the path model (for C7). -/

/-- A resolved path segment: non-empty, not the parent marker, and free of
separators. -/
def plainSeg (s : List Char) : Prop := s ≠ [] ∧ s ≠ ['.', '.'] ∧ '/' ∉ s

lemma splitSegs_no_slash : ∀ (l : List Char) (s : List Char), s ∈ splitSegs l → '/' ∉ s := by
  intro l
  induction l with
  | nil =>
    intro s hs
    simp only [splitSegs, List.mem_singleton] at hs
    subst hs
    simp
  | cons c rest ih =>
    intro s hs
    simp only [splitSegs] at hs
    by_cases hc : c = '/'
    · rw [if_pos hc] at hs
      rcases List.mem_cons.mp hs with h | h
      · subst h; simp
      · exact ih s h
    · rw [if_neg hc] at hs
      cases hsp : splitSegs rest with
      | nil =>
        rw [hsp] at hs
        simp only [List.mem_singleton] at hs
        subst hs
        simp only [List.mem_singleton]
        exact fun h2 => hc h2.symm
      | cons s0 ss =>
        rw [hsp] at hs
        rcases List.mem_cons.mp hs with h | h
        · subst h
          intro hmem
          rcases List.mem_cons.mp hmem with h2 | h2
          · exact hc h2.symm
          · exact ih s0 (hsp ▸ List.mem_cons_self s0 ss) h2
        · exact ih s (hsp ▸ List.mem_cons.mpr (Or.inr h))

lemma resolveSegs_plain : ∀ (l : List (List Char)) (acc : List (List Char)),
    (∀ s ∈ acc, plainSeg s) → (∀ s ∈ l, '/' ∉ s) →
    ∀ s ∈ resolveSegs acc l, plainSeg s := by
  intro l
  induction l with
  | nil =>
    intro acc hacc _ s hs
    simp only [resolveSegs, List.mem_reverse] at hs
    exact hacc s hs
  | cons x rest ih =>
    intro acc hacc hl s hs
    simp only [resolveSegs] at hs
    by_cases h1 : x = [] ∨ x = ['.']
    · rw [if_pos h1] at hs
      exact ih acc hacc (fun t ht => hl t (List.mem_cons.mpr (Or.inr ht))) s hs
    · rw [if_neg h1] at hs
      by_cases h2 : x = ['.', '.']
      · rw [if_pos h2] at hs
        exact ih acc.tail (fun t ht => hacc t (List.mem_of_mem_tail ht))
          (fun t ht => hl t (List.mem_cons.mpr (Or.inr ht))) s hs
      · rw [if_neg h2] at hs
        refine ih (x :: acc) ?_ (fun t ht => hl t (List.mem_cons.mpr (Or.inr ht))) s hs
        intro t ht
        rcases List.mem_cons.mp ht with h | h
        · subst h
          exact ⟨fun hx => h1 (Or.inl hx), h2, hl t (List.mem_cons_self t rest)⟩
        · exact hacc t h

lemma absSegs_plain (p : String) : ∀ s ∈ absSegs p, plainSeg s :=
  resolveSegs_plain (splitSegs p.data) [] (by simp) (splitSegs_no_slash p.data)

lemma dropCommon_fst_nil_iff : ∀ (a b : List (List Char)), (dropCommon a b).1 = [] ↔ a <+: b := by
  intro a
  induction a with
  | nil => intro b; cases b <;> simp [dropCommon]
  | cons x as ih =>
    intro b
    cases b with
    | nil => simp [dropCommon]
    | cons y bs =>
      by_cases hxy : x = y
      · subst hxy
        simp only [dropCommon, if_pos rfl]
        rw [List.cons_prefix_cons]
        simp [ih bs]
      · simp [dropCommon, hxy, List.cons_prefix_cons]

lemma dropCommon_snd_nil_iff : ∀ (a b : List (List Char)), (dropCommon a b).2 = [] ↔ b <+: a := by
  intro a
  induction a with
  | nil =>
    intro b
    cases b <;> simp [dropCommon]
  | cons x as ih =>
    intro b
    cases b with
    | nil => simp [dropCommon]
    | cons y bs =>
      by_cases hxy : x = y
      · subst hxy
        simp only [dropCommon, if_pos rfl]
        rw [List.cons_prefix_cons]
        simp [ih bs]
      · have hyx : y ≠ x := fun h => hxy h.symm
        simp [dropCommon, hxy, List.cons_prefix_cons, hyx]

lemma dropCommon_snd_subset : ∀ (a b : List (List Char)), ∀ s ∈ (dropCommon a b).2, s ∈ b := by
  intro a
  induction a with
  | nil =>
    intro b s hs
    cases b with
    | nil => simp [dropCommon] at hs
    | cons y bs => simpa [dropCommon] using hs
  | cons x as ih =>
    intro b s hs
    cases b with
    | nil => simp [dropCommon] at hs
    | cons y bs =>
      by_cases hxy : x = y
      · simp only [dropCommon, if_pos hxy] at hs
        exact List.mem_cons.mpr (Or.inr (ih bs s hs))
      · simp only [dropCommon, if_neg hxy] at hs
        exact hs

lemma joinSegs_cons (a : List Char) (L : List (List Char)) (hL : L ≠ []) :
    joinSegs (a :: L) = a ++ '/' :: joinSegs L := by
  cases L with
  | nil => exact absurd rfl hL
  | cons b M => rfl

lemma stripParents_of_not_lead (c1 c2 c3 : Char) (r : List Char)
    (h : ¬(c1 = '.' ∧ c2 = '.' ∧ c3 = '/')) :
    stripParents (c1 :: c2 :: c3 :: r) = (0, c1 :: c2 :: c3 :: r) := by
  simp [stripParents, h]

lemma stripParents_lead (r : List Char) :
    stripParents ('.' :: '.' :: '/' :: r) = ((stripParents r).1 + 1, (stripParents r).2) := by
  simp [stripParents]

lemma stripParents_plain_head (ts : List (List Char)) (t0 : List Char) (ts2 : List (List Char))
    (hts : ts = t0 :: ts2) (h0 : plainSeg t0) :
    stripParents (joinSegs ts) = (0, joinSegs ts) := by
  subst hts
  obtain ⟨h0ne, h0dd, h0sl⟩ := h0
  cases ts2 with
  | nil =>
    show stripParents (joinSegs [t0]) = (0, joinSegs [t0])
    cases t0 with
    | nil => simp [joinSegs, stripParents]
    | cons c1 t1 =>
      cases t1 with
      | nil => simp [joinSegs, stripParents]
      | cons c2 t2 =>
        cases t2 with
        | nil => simp [joinSegs, stripParents]
        | cons c3 t3 =>
          show stripParents (c1 :: c2 :: c3 :: t3) = (0, c1 :: c2 :: c3 :: t3)
          apply stripParents_of_not_lead
          rintro ⟨rfl, rfl, rfl⟩
          exact h0sl (by simp)
  | cons u ts3 =>
    rw [joinSegs_cons t0 (u :: ts3) (by simp)]
    cases t0 with
    | nil => exact absurd rfl h0ne
    | cons c1 t1 =>
      cases t1 with
      | nil =>
        simp only [List.cons_append, List.nil_append]
        cases hJ : joinSegs (u :: ts3) with
        | nil => simp [stripParents]
        | cons j J2 =>
          apply stripParents_of_not_lead
          rintro ⟨_, h2, _⟩
          exact absurd h2 (by decide)
      | cons c2 t2 =>
        cases t2 with
        | nil =>
          simp only [List.cons_append, List.nil_append]
          apply stripParents_of_not_lead
          rintro ⟨rfl, rfl, _⟩
          exact h0dd rfl
        | cons c3 t3 =>
          simp only [List.cons_append]
          apply stripParents_of_not_lead
          rintro ⟨_, _, rfl⟩
          exact h0sl (by simp)

lemma stripParents_replicate (ts : List (List Char)) (t0 : List Char) (ts2 : List (List Char))
    (hts : ts = t0 :: ts2) (h0 : plainSeg t0) :
    ∀ n : Nat, stripParents (joinSegs (List.replicate n ['.', '.'] ++ ts)) = (n, joinSegs ts) := by
  intro n
  induction n with
  | zero => simpa using stripParents_plain_head ts t0 ts2 hts h0
  | succ m ih =>
    have hne2 : List.replicate m ['.', '.'] ++ ts ≠ [] := by
      subst hts; simp
    rw [List.replicate_succ, List.cons_append, joinSegs_cons _ _ hne2]
    simp only [List.cons_append, List.nil_append]
    rw [stripParents_lead, ih]

lemma map_const_dd (l : List (List Char)) :
    l.map (fun _ => (['.', '.'] : List Char)) = List.replicate l.length ['.', '.'] := by
  induction l with
  | nil => simp
  | cons x rest ih => simp [List.replicate_succ, ih]

/-- C7 (amended): every relative asset URL (starting with `./` or `../`) —
provided the resolved asset path is not the output root itself or an
ancestor of it — is rewritten into the `/__wds-outside-root__/<n>/<rest>`
namespace where `n` is the number of `../` steps from the output root to the
asset path, and `n = 0` precisely when the asset path lies inside the output
root; non-relative URLs are returned unchanged.  In particular, relative
URLs resolving inside the output root are also rewritten (with counter 0)
rather than returned unchanged. -/
theorem adjust_asset_url_characterisation (outputDir outputFilePath url u2 : String)
    (hrel : isRelativeUrl url = true)
    (hnotanc : ¬ (absSegs (joinPath (dirname outputFilePath) url) <+: absSegs outputDir))
    (hu2 : isRelativeUrl u2 = false) :
    (adjustAssetUrl outputDir outputFilePath url =
      wdsOutsideRootBase ++
        toString (dropCommon (absSegs outputDir)
          (absSegs (joinPath (dirname outputFilePath) url))).1.length ++
        "/" ++ String.mk (joinSegs (dropCommon (absSegs outputDir)
          (absSegs (joinPath (dirname outputFilePath) url))).2)) ∧
    ((dropCommon (absSegs outputDir)
        (absSegs (joinPath (dirname outputFilePath) url))).1.length = 0 ↔
      absSegs outputDir <+: absSegs (joinPath (dirname outputFilePath) url)) ∧
    (adjustAssetUrl outputDir outputFilePath u2 = u2) := by
  have hts_ne : (dropCommon (absSegs outputDir)
      (absSegs (joinPath (dirname outputFilePath) url))).2 ≠ [] := by
    rw [Ne, dropCommon_snd_nil_iff]
    exact hnotanc
  obtain ⟨t0, ts2, hts⟩ := List.exists_cons_of_ne_nil hts_ne
  have ht0 : plainSeg t0 := by
    apply absSegs_plain (joinPath (dirname outputFilePath) url)
    apply dropCommon_snd_subset
    rw [hts]
    exact List.mem_cons_self t0 ts2
  have hstrip := stripParents_replicate _ t0 ts2 hts ht0
    (dropCommon (absSegs outputDir)
      (absSegs (joinPath (dirname outputFilePath) url))).1.length
  refine ⟨?_, ?_, ?_⟩
  · rw [adjustAssetUrl, if_pos hrel]
    show wdsOutsideRootBase ++
        toString (stripParents (relativePath outputDir
          (joinPath (dirname outputFilePath) url)).data).1 ++ "/" ++
        String.mk (stripParents (relativePath outputDir
          (joinPath (dirname outputFilePath) url)).data).2 = _
    rw [relativePath]
    show wdsOutsideRootBase ++ toString (stripParents (joinSegs _)).1 ++ "/" ++
        String.mk (stripParents (joinSegs _)).2 = _
    rw [map_const_dd, hstrip]
  · rw [List.length_eq_zero, dropCommon_fst_nil_iff]
  · rw [adjustAssetUrl, if_neg (by simp [hu2])]

def urlRelativeExample : String := "./a.css"

def outputDirExample : String := "/out"

def outputFileExample : String := "/out/sub/index.html"

/-- C7 counterexample: the relative URL `./a.css` in the page
`/out/sub/index.html` resolves to `/out/sub/a.css`, which lies inside the
output root `/out`, yet `adjustAssetUrl` does not return it unchanged — it
rewrites it into the outside-root namespace with counter 0. -/
theorem relative_url_inside_root_is_still_rewritten :
    (absSegs outputDirExample <+:
      absSegs (joinPath (dirname outputFileExample) urlRelativeExample)) ∧
    adjustAssetUrl outputDirExample outputFileExample urlRelativeExample ≠ urlRelativeExample ∧
    adjustAssetUrl outputDirExample outputFileExample urlRelativeExample =
      "/__wds-outside-root__/0/sub/a.css" := by
  refine ⟨by decide, by decide, by decide⟩

/-! ### Concrete instances used by the witnesses and counterexamples. -/

def docA : String := "/docs/a.md"

def docB : String := "/docs/b.md"

def docC : String := "/docs/c.md"

def urlA : String := "/a"

def urlNone : String := "/nope"

def urlAbsExample : String := "/abs.css"

/-- An environment where every render succeeds, `/a` resolves to `docA`,
and every save detects a structural change. -/
def envT : Env :=
  { renderOk := fun _ => true
    urlToSource := fun u => if u = urlA then some docA else none
    outputOf := fun q => q ++ ".html"
    relOf := fun q => q
    structuralChange := fun _ => true
    keepOnSave := fun _ => true }

/-- Like `envT`, but every page's source counts as deleted at save time. -/
def envDel : Env := { envT with keepOnSave := fun _ => false }

/-- Like `envT`, but rendering `docA` throws. -/
def envFailA : Env := { envT with renderOk := fun q => q ≠ docA }

/-- A watcher state with `docB` open in one browser tab and `docC` tracked
but not open; no output files exist yet. -/
def stateW : EngineState :=
  { outputFiles := []
    pageTree := PageTree.empty
    pages := [(docB, WatchPage.mk 1), (docC, WatchPage.mk 0)] }

/-- A state where `docA`'s output file already exists. -/
def stateOut : EngineState :=
  { outputFiles := [docA ++ ".html"], pageTree := PageTree.empty, pages := [] }

theorem serve_on_demand_renders_and_cascades_witness :
    ((serve envT stateW urlA).2.count (REvent.rendered docA) =
      (if (PageTree.save envT
          (stateW.pageTree.add (envT.relOf docA))).needsAnotherRenderingPass
        then 2 else 1)) ∧
    ((serve envT stateW urlA).2.count (REvent.rendered docB) =
      (if (PageTree.save envT
          (stateW.pageTree.add (envT.relOf docA))).needsAnotherRenderingPass
        then 1 else 0)) ∧
    (REvent.addedToTree (envT.relOf docA) ∈ (serve envT stateW urlA).2) ∧
    (REvent.savedTree ∈ (serve envT stateW urlA).2) ∧
    ((serve envT stateW urlA).1.pageTree.needsAnotherRenderingPass = false) :=
  serve_on_demand_renders_and_cascades envT stateW urlA docA docB (WatchPage.mk 1)
    (by decide) (by decide) (by decide) (fun _ => rfl) (by decide) (by decide)
    (by decide) (by decide) (by decide)

theorem watch_event_cascade_counts_witness :
    ((onPageSavedOrOpenedTabAndServerDependencyChanged envT stateW docA).2.count
        (REvent.rendered docB) = 1) ∧
    ((onPageSavedOrOpenedTabAndServerDependencyChanged envT stateW docA).2.count
        (REvent.rendered docA) = 2) :=
  watch_event_cascade_counts envT stateW docA docB (WatchPage.mk 1)
    (fun _ => rfl) rfl (by decide) (by decide) (by decide) (by decide) (by decide)

/-- C3 counterexample: in `Engine.build` a render error for the first file
is not contained — the build aborts, the second file is never rendered and
the page tree is never saved. -/
theorem build_render_error_aborts_remaining_files :
    ((build envFailA [docA, docB]).2.2 = true) ∧
    (REvent.rendered docB ∉ (build envFailA [docA, docB]).2.1) ∧
    (REvent.savedTree ∉ (build envFailA [docA, docB]).2.1) := by decide

theorem render_error_contained_except_in_build_witness :
    ((onPageSavedOrOpenedTabAndServerDependencyChanged envFailA stateW docA).2 =
      [REvent.updatedHeader docA, REvent.renderFailed docA]) ∧
    ((onPageSavedOrOpenedTabAndServerDependencyChanged envFailA stateW docA).1.pageTree =
      stateW.pageTree) ∧
    ((serve envFailA stateW urlA).2 =
      [REvent.updatedHeader docA, REvent.renderFailed docA]) ∧
    ((renderAllOpenedFiles envFailA stateW true docA).2.count (REvent.rendered docB) = 1) ∧
    ((build envFailA (docA :: [docB])).2.2 = true) ∧
    ((build envFailA (docA :: [docB])).2.1 =
      [REvent.updatedHeader docA, REvent.renderFailed docA]) :=
  render_error_contained_except_in_build envFailA stateW docA urlA docA docB (WatchPage.mk 1)
    [docB] (by decide) (by decide) (by decide) (by decide) (by decide) (by decide)
    (by decide) (by decide) (by decide)

theorem page_deleted_removes_output_and_tree_entry_witness :
    (envDel.outputOf docA ∉ (onPageDeleted envDel stateW docA).1.outputFiles) ∧
    (REvent.deletedOutput docA ∈ (onPageDeleted envDel stateW docA).2) ∧
    (REvent.rendered docB ∉ (onPageDeleted envDel stateW docA).2) ∧
    (envDel.relOf docA ∉
      (PageTree.save envDel (PageTree.mk [docA] false false)).entries) :=
  page_deleted_removes_output_and_tree_entry envDel stateW docA docB
    (PageTree.mk [docA] false false) rfl

/-- C6 counterexample: a build over an empty gathered file list never calls
`pageTree.save`, so the tree is not saved exactly once in every build. -/
theorem build_without_sources_never_saves :
    ¬ ((build envT []).2.1.count REvent.savedTree = 1) := by decide

theorem build_renders_each_file_at_most_twice_witness :
    ((build envT [docA, docB]).2.2 = false) ∧
    ((build envT [docA, docB]).2.1.count REvent.savedTree = 1) ∧
    (REvent.addedToTree (envT.relOf docA) ∈ (build envT [docA, docB]).2.1) ∧
    ((build envT [docA, docB]).2.1.count (REvent.rendered docA) =
      (if (build envT [docA, docB]).1.pageTree.pageTreeChangedOnSave then 2 else 1)) ∧
    ((build envT [docA, docB]).2.1.count (REvent.rendered docA) ≤ 2) :=
  build_renders_each_file_at_most_twice envT [docA, docB] docA (by decide) (fun _ => rfl)
    (by decide)

theorem adjust_asset_url_characterisation_witness :
    (adjustAssetUrl outputDirExample outputFileExample urlRelativeExample =
      wdsOutsideRootBase ++
        toString (dropCommon (absSegs outputDirExample)
          (absSegs (joinPath (dirname outputFileExample) urlRelativeExample))).1.length ++
        "/" ++ String.mk (joinSegs (dropCommon (absSegs outputDirExample)
          (absSegs (joinPath (dirname outputFileExample) urlRelativeExample))).2)) ∧
    ((dropCommon (absSegs outputDirExample)
        (absSegs (joinPath (dirname outputFileExample) urlRelativeExample))).1.length = 0 ↔
      absSegs outputDirExample <+:
        absSegs (joinPath (dirname outputFileExample) urlRelativeExample)) ∧
    (adjustAssetUrl outputDirExample outputFileExample urlAbsExample = urlAbsExample) :=
  adjust_asset_url_characterisation outputDirExample outputFileExample urlRelativeExample
    urlAbsExample (by decide) (by decide) (by decide)

theorem prepare_plugin_folder_copy_or_log_witness :
    ((if truthyFolder EnginePluginLaunch.publicFolder &&
          (fun _ => true) (EnginePluginLaunch.publicFolder.getD emptyString) then
        PrepEvent.copiedPublicFolder (EnginePluginLaunch.publicFolder.getD emptyString)
      else PrepEvent.loggedMissingFolder EnginePluginLaunch.name
        EnginePluginLaunch.publicFolder) ∈
      preparePluginPublicFolders (fun _ => true) [EnginePluginLaunch]) ∧
    ((preparePluginPublicFolders (fun _ => true) [EnginePluginLaunch]).length =
      [EnginePluginLaunch].length) :=
  prepare_plugin_folder_copy_or_log (fun _ => true) [EnginePluginLaunch] EnginePluginLaunch
    (by decide)

theorem cascade_deletes_unopened_pages_witness :
    (REvent.deletedOutput docC ∈ (renderAllOpenedFiles envT stateW true docA).2) ∧
    (REvent.rendered docC ∉ (renderAllOpenedFiles envT stateW true docA).2) ∧
    (REvent.renderFailed docC ∉ (renderAllOpenedFiles envT stateW true docA).2) :=
  cascade_deletes_unopened_pages envT stateW docA docC (WatchPage.mk 0)
    (by decide) (by decide) rfl (by decide)

theorem serve_frame_no_mutation_witness :
    serve envT stateOut urlNone = (stateOut, []) :=
  serve_frame_no_mutation envT stateOut urlNone (Or.inl (by decide))

end RocketEngine
